import Mathlib

/-!
Shallow embedding of the processing-job orchestration core of
`qiita_db/processing_job.py` (module `qiita_db.processing_job`), together
with proofs of the specification claims about it.

Conventions of the embedding:
* Python string statuses become the closed enumeration `Qiita.Status`.
* A Python method that can `raise` becomes a Lean function returning
  `Except Qiita.QErr _` (or a pair carrying the unchanged state, when the
  claim speaks about what a failed call leaves behind).
* Database writes become explicit record updates; the rows a method would
  insert are returned as lists.
-/

namespace Qiita

/-- The persisted job status vocabulary (`processing_job_status` table). -/
inductive Status where
  | in_construction
  | queued
  | running
  | waiting
  | success
  | error
deriving DecidableEq, Repr, Fintype

/-- The exception vocabulary used by the embedded methods:
`QiitaDBStatusError`, `QiitaDBOperationNotPermittedError`, `ValueError`
(duplicate creation), Python `KeyError` and `TypeError`. -/
inductive QErr where
  | statusError
  | opNotPermitted
  | valueError (offending : List (String × Status))
  | keyError
  | typeError
deriving DecidableEq, Repr

/-- Embeds `ProcessingJob._set_status` (processing_job.py, lines 866-913):
given the job's current status and the requested new status, either the
update goes through (returning the new status) or a
`QiitaDBStatusError` is raised.  The method raises exactly when the
current status is `success`, or the current status is `running` and the
requested one is `queued`; every other write succeeds. -/
def set_status (current value : Status) : Except QErr Status :=
  if current = .success then
    .error .statusError
  else if current = .running ∧ value = .queued then
    .error .statusError
  else
    .ok value

/-- Modelled from the spec (section 4.1): the transition relation of the
spec's job state machine, used to compare `set_status` against the
specification's words.  Permitted transitions: `in_construction` to
`queued` or `waiting`; `queued` to `running`; `running` to `success`,
`waiting` or `error`; `waiting` to `queued`, `success` or `error`. -/
def specPermitted : Status → Status → Bool
  | .in_construction, .queued => true
  | .in_construction, .waiting => true
  | .queued, .running => true
  | .running, .success => true
  | .running, .waiting => true
  | .running, .error => true
  | .waiting, .queued => true
  | .waiting, .success => true
  | .waiting, .error => true
  | _, _ => false

/-- Job state as seen by `update_heartbeat_state`: a status plus the last
heartbeat timestamp (modelled as an abstract `Option Nat`). -/
structure HBJob where
  status : Status
  heartbeat : Option Nat
deriving DecidableEq, Repr

/-- Embeds `ProcessingJob.update_heartbeat_state` (lines 1647-1669).
The method runs inside one transaction, so a raise rolls everything
back; we therefore return the (possibly unchanged) job next to the
outcome.  On a `queued` job it first sets the status to `running` via
`_set_status`; on a job that is neither `queued` nor `running` it raises
`QiitaDBOperationNotPermittedError` before touching the heartbeat;
otherwise it stamps the heartbeat with the current time. -/
def update_heartbeat_state (j : HBJob) (now : Nat) : HBJob × Option QErr :=
  if j.status = .queued then
    match set_status j.status .running with
    | .ok st => ({ status := st, heartbeat := some now }, none)
    | .error e => (j, some e)
  else if j.status ≠ .running then
    (j, some .opNotPermitted)
  else
    ({ j with heartbeat := some now }, none)

/-! ### Character-list utilities

Python string operations (`split`, `strip`, `startswith`, substring
tests) are embedded structurally over `List Char`, so that concrete
runs reduce inside the kernel. -/

/-- `leadMatches pat l` embeds Python `l.startswith(pat)` on char lists. -/
def leadMatches : List Char → List Char → Bool
  | [], _ => true
  | _ :: _, [] => false
  | a :: as, b :: bs => a == b && leadMatches as bs

/-- `containsSub pat l`: Python `pat in l` (substring containment). -/
def containsSub (pat : List Char) : List Char → Bool
  | [] => pat.isEmpty
  | c :: rest => leadMatches pat (c :: rest) || containsSub pat rest

/-- Python `s1 in s2` on strings. -/
def strContains (s pat : String) : Bool :=
  containsSub pat.data s.data

/-- Python `str.strip()`: drop whitespace from both ends. -/
def trimChars (l : List Char) : List Char :=
  ((l.dropWhile Char.isWhitespace).reverse.dropWhile Char.isWhitespace).reverse

/-- Python `s.split(sep)` for a one-character separator `sep`. -/
def splitOnChar (sep : Char) : List Char → List (List Char)
  | [] => [[]]
  | c :: rest =>
    if c = sep then
      [] :: splitOnChar sep rest
    else
      match splitOnChar sep rest with
      | [] => [[c]]
      | p :: ps => (c :: p) :: ps

/-- Python `s.split('--')`, the separator used by
`resource_allocation_info` for allocation fragments. -/
def splitDashes : List Char → List (List Char)
  | '-' :: '-' :: rest => [] :: splitDashes rest
  | c :: rest =>
    match splitDashes rest with
    | [] => [[c]]
    | p :: ps => (c :: p) :: ps
  | [] => [[]]

/-- Python `' '.join(parts)`. -/
def joinSpace : List (List Char) → List Char
  | [] => []
  | p :: ps => p ++ ps.flatMap (fun q => ' ' :: q)

/-- Python `sep.join(parts)` on strings. -/
def joinWith (sep : String) : List String → String
  | [] => ""
  | p :: ps => p ++ String.join (ps.map (fun q => sep ++ q))

/-! ### Submission (`ProcessingJob.submit`) and child threading -/

/-- A pending map: `predecessor_job_id → {parameter_name → output_name}`
(the JSONB `pending` column, decoded).  Modelled as an association
list. -/
abbrev PendingMap := List (Nat × List (String × String))

/-- The slice of a job's row that `submit` and the ENVIRONMENT special
path read and write. -/
structure SubmitJob where
  status : Status
  pending : PendingMap
  externalId : Option String
  log : Option String
deriving DecidableEq, Repr

/-- Embeds the entry of `ProcessingJob.submit` (lines 975-1000): refuse
unless the status is `in_construction` or `waiting`, then move to
`queued` via `_set_status` and commit.  Note that the code never reads
the `pending` column here. -/
def submit_queue_step (j : SubmitJob) : Except QErr SubmitJob :=
  if ¬(j.status = .in_construction ∨ j.status = .waiting) then
    .error .opNotPermitted
  else
    match set_status j.status .queued with
    | .error e => .error e
    | .ok st => .ok { j with status := st }

/-- Embeds `ProcessingJob._set_error` as it acts on the job itself
(lines 1598-1629): refuse on a `success` job, attach a log entry, and
set the status to `error`.  (The recursive failure of children is
modelled separately where a claim needs it.) -/
def set_error (j : SubmitJob) (msg : String) : Except QErr SubmitJob :=
  if j.status = .success then
    .error .opNotPermitted
  else
    match set_status j.status .error with
    | .error e => .error e
    | .ok st => .ok { j with status := st, log := some msg }

/-- Outcome of `_system_call(cmd)`: captured stdout, stderr and the exit
status of the synchronously executed script. -/
structure ExecOutcome where
  stdout : String
  stderr : String
  returncode : Int
deriving DecidableEq, Repr

/-- The hardcoded command names excluded from the ENVIRONMENT special
path (line 1024). -/
def cnames_to_skip : List String := ["Calculate Cell Counts", "Calculate RNA Copy Counts"]

/-- The guard of the special submission path (line 1025): the plugin's
environment script contains the token `ENVIRONMENT` and the command
name is not excluded. -/
def isEnvironmentPath (envScript cname : String) : Bool :=
  strContains envScript "ENVIRONMENT" && !(cnames_to_skip.contains cname)

/-- Embeds `ProcessingJob.submit` through the ENVIRONMENT special path
(lines 990-1038 and 1143-1144).  The returned list records the statuses
written, in order; the returned `Bool` tells whether the special path
ran.  On the special path the job is set to `running`, the script's
captured outcome is consulted, an error is attached when the exit
status is non-zero or stderr is non-empty, and the captured stdout
becomes the external id.  The local/cluster launcher dispatch of the
other branch is outside the modelled scope. -/
def submit (envScript cname : String) (exec : ExecOutcome) (j : SubmitJob) :
    Except QErr (SubmitJob × List Status × Bool) :=
  match submit_queue_step j with
  | .error e => .error e
  | .ok j1 =>
    if isEnvironmentPath envScript cname then
      match set_status j1.status .running with
      | .error e => .error e
      | .ok st2 =>
        let j2 := { j1 with status := st2 }
        if exec.returncode ≠ 0 ∨ exec.stderr ≠ "" then
          match set_error j2 exec.stderr with
          | .error e => .error e
          | .ok j3 =>
            .ok ({ j3 with externalId := some exec.stdout },
              [j1.status, st2, j3.status], true)
        else
          .ok ({ j2 with externalId := some exec.stdout }, [j1.status, st2], true)
    else
      .ok (j1, [j1.status], false)

/-- A child job's view in `_helper_update_children`: its parameters (the
JSON object, values as their stored text) and the raw `pending` column
(`none` models SQL NULL). -/
structure ChildJob where
  cid : Nat
  status : Status
  params : List (String × String)
  pending : Option PendingMap
deriving DecidableEq, Repr

/-- Python dict assignment `params[pname] = v`. -/
def setParam (ps : List (String × String)) (k v : String) : List (String × String) :=
  if (ps.lookup k).isSome then
    ps.map (fun p => if p.1 = k then (k, v) else p)
  else
    ps ++ [(k, v)]

/-- Python `del pending[k]`: `none` models the raised `KeyError` when
the key is absent. -/
def delKey (pd : PendingMap) (k : Nat) : Option PendingMap :=
  if (pd.lookup k).isSome then some (pd.filter (fun p => p.1 ≠ k)) else none

/-- The inner loop of `_helper_update_children` (lines 1764-1769): for
each `(pname, out_name)` pair recorded under the parent's pending
entry, look the artifact up in `new_map`, rewrite the parameter to its
id, execute `del pending[self.id]`, and record the artifact link.
Faithfully to the source, the `del` runs on every iteration of the
loop. -/
def update_child_pairs (selfId : Nat) (new_map : List (String × Nat)) :
    List (String × String) → List (String × String) → PendingMap →
    Except QErr (List (String × String) × PendingMap × List Nat)
  | [], params, pd => .ok (params, pd, [])
  | (pname, out_name) :: rest, params, pd =>
    match new_map.lookup out_name with
    | none => .error .keyError
    | some a_id =>
      let params' := setParam params pname (toString a_id)
      match delKey pd selfId with
      | none => .error .keyError
      | some pd' =>
        match update_child_pairs selfId new_map rest params' pd' with
        | .error e => .error e
        | .ok (p, q, links) => .ok (p, q, a_id :: links)

/-- Embeds the per-child body of `ProcessingJob._helper_update_children`
(lines 1761-1775): fetch the child's parameters and raw pending column,
iterate over the pairs under `pending[self.id]`, persist the rewritten
parameters and pending map, forcing NULL when the map became empty. -/
def helper_update_child (selfId : Nat) (new_map : List (String × Nat)) (c : ChildJob) :
    Except QErr (ChildJob × List Nat) :=
  match c.pending with
  | none => .error .typeError
  | some pd =>
    match pd.lookup selfId with
    | none => .error .keyError
    | some pairs =>
      match update_child_pairs selfId new_map pairs c.params pd with
      | .error e => .error e
      | .ok (params', pd', links) =>
        let newPending := if pd'.isEmpty then none else some pd'
        .ok ({ c with params := params', pending := newPending }, links)

/-- Embeds `_helper_update_children` over the list of children: returns
the updated children and the `ready` list, the children whose pending
map became NULL. -/
def helper_update_children (selfId : Nat) (new_map : List (String × Nat)) :
    List ChildJob → Except QErr (List ChildJob × List ChildJob)
  | [] => .ok ([], [])
  | c :: cs =>
    match helper_update_child selfId new_map c with
    | .error e => .error e
    | .ok (c', _) =>
      match helper_update_children selfId new_map cs with
      | .error e => .error e
      | .ok (us, ready) =>
        .ok (c' :: us, if c'.pending.isNone then c' :: ready else ready)

/-- Embeds `_update_and_launch_children` (lines 1808-1824): update the
children, then submit every ready child whose status is
`in_construction` or `waiting`.  Returns the updated children and the
children handed to `submit`. -/
def update_and_launch_children (selfId : Nat) (new_map : List (String × Nat))
    (children : List ChildJob) : Except QErr (List ChildJob × List ChildJob) :=
  match helper_update_children selfId new_map children with
  | .error e => .error e
  | .ok (us, ready) =>
    .ok (us, ready.filter (fun c => c.status = .in_construction ∨ c.status = .waiting))

/-! ### Job creation and the duplicate guard (`ProcessingJob.create`) -/

/-- A parameter value as `create` sees it: a scalar (carried by its
Python `str()` rendering) or an iterable of such renderings. -/
inductive PValue where
  | scalar (s : String)
  | listval (l : List String)
deriving DecidableEq, Repr

/-- The parameter expansion of `create` (lines 601-609): every
`(key, value)` pair contributes `(key, str(value))`, and a non-string
iterable is expanded element by element under its key. -/
def expand_params (ps : List (String × PValue)) : List (String × String) :=
  ps.flatMap (fun kv =>
    match kv.2 with
    | .scalar s => [(kv.1, s)]
    | .listval l => l.map (fun x => (kv.1, x)))

/-- SQL `ILIKE` with a wildcard-free right-hand side: case-insensitive
string equality. -/
def ilikeEq (a b : String) : Bool :=
  a.data.map Char.toLower == b.data.map Char.toLower

/-- The status filter of the duplicate query (lines 594-595):
`processing_job_status IN ('success', 'waiting', 'running',
'in_construction')`.  Note that `queued` is not in the list. -/
def sql_status_filter (s : Status) : Bool :=
  s = .success ∨ s = .waiting ∨ s = .running ∨ s = .in_construction

/-- A persisted job row as the duplicate query joins it: id, owner,
command, stored parameter texts (`command_parameters->>key`), status and
the count of its output artifacts (children). -/
structure ExistingJob where
  jobId : String
  email : String
  cmdId : Nat
  stored : List (String × String)
  status : Status
  childOutputs : Nat
deriving DecidableEq, Repr

/-- The `command_parameters->>%s ILIKE %s` conjuncts: every expanded
`(key, text)` pair of the new job must match the stored text under the
same key, case-insensitively; a missing key never matches. -/
def matches_params (stored : List (String × String)) (expanded : List (String × String)) : Bool :=
  expanded.all (fun kv =>
    match stored.lookup kv.1 with
    | some t => ilikeEq t kv.2
    | none => false)

/-- The duplicate query of `create` (lines 586-622): jobs of the same
command whose status passes the SQL filter and whose stored parameters
match the new parameters argument for argument. -/
def duplicate_query (cmdId : Nat) (params : List (String × PValue))
    (jobs : List ExistingJob) : List ExistingJob :=
  jobs.filter (fun j =>
    j.cmdId = cmdId ∧ sql_status_filter j.status = true ∧
      matches_params j.stored (expand_params params) = true)

/-- The row `create` inserts on success. -/
structure NewJob where
  cmdId : Nat
  params : List (String × PValue)
  status : Status
deriving DecidableEq, Repr

/-- Embeds `ProcessingJob.create` (lines 559-674) up to the insert:
with `force=False`, run the duplicate query, keep only matches that are
not a childless `success` (lines 626-627), and raise a `ValueError`
listing the offending `(job_id, status)` pairs when any remain;
otherwise (or with `force=True`) insert the new `in_construction`
job. -/
def create (cmdId : Nat) (params : List (String × PValue)) (force : Bool)
    (jobs : List ExistingJob) : Except QErr NewJob :=
  if ¬force then
    let existing := (duplicate_query cmdId params jobs).filter
      (fun r => r.status ≠ .success ∨ 0 < r.childOutputs)
    if existing.isEmpty then
      .ok { cmdId := cmdId, params := params, status := .in_construction }
    else
      .error (.valueError (existing.map (fun r => (r.jobId, r.status))))
  else
    .ok { cmdId := cmdId, params := params, status := .in_construction }

/-! ### Validator chain fan-out (`_complete_artifact_transformation`) -/

/-- `job_scheduler_dependency_q_cnt` with its default (lines 1493-1495):
`n = 2` when the configuration value is unset. -/
def dependency_q_cnt (cfg : Option Nat) : Nat :=
  match cfg with
  | none => 2
  | some k => k

/-- The chunking of the validator jobs into lists of size `n`
(lines 1497-1500): `[validator_jobs[i*n:(i+1)*n] for i in
range((len(validator_jobs) + n - 1) // n)]`. -/
def chunk_validators {α : Type} (jobs : List α) (n : Nat) : List (List α) :=
  (List.range ((jobs.length + n - 1) / n)).map (fun i => (jobs.drop (i * n)).take n)

/-- The submission loop over the chunks (lines 1502-1508): each
sub-list pops its lead job, which is submitted carrying the remainder
of the sub-list as its dependents. -/
def submit_chains {α : Type} (jobs : List α) (n : Nat) : List (α × List α) :=
  (chunk_validators jobs n).filterMap (fun l =>
    match l with
    | [] => none
    | lead :: rest => some (lead, rest))

/-! ### Validator protocol (`_complete_artifact_transformation`,
`release_validators`, `release`) -/

/-- One entry of `artifacts_data`: the payload describing an output
artifact (`{'filepaths': [...], 'artifact_type': t}`). -/
structure AData where
  artifact_type : String
  filepaths : List (String × String)
deriving DecidableEq, Repr

/-- The JSON `provenance` record attached to a validator's parameters
(lines 1461-1463). -/
structure Provenance where
  job : Nat
  cmd_out_id : Option Nat
  name : String
deriving DecidableEq, Repr

/-- The parameters of one `Validate` job spawned by
`_complete_artifact_transformation`. -/
structure ValidatorSpec where
  files : List (String × String)
  artifact_type : String
  provenance : Provenance
deriving DecidableEq, Repr

/-- The fan-out loop of `_complete_artifact_transformation`
(lines 1401-1482): one `Validate` job is created per entry of
`artifacts_data`, carrying a provenance that names the spawning job,
the command output id and the output name.  `cmdOut` embeds the
`command_output` lookup by output name. -/
def complete_transformation_validators (selfId : Nat) (cmdOut : String → Option Nat)
    (artifacts_data : List (String × AData)) : List ValidatorSpec :=
  artifacts_data.map (fun oa =>
    { files := oa.2.filepaths
      artifact_type := oa.2.artifact_type
      provenance := { job := selfId, cmd_out_id := cmdOut oa.1, name := oa.1 } })

/-- Embeds `_set_validator_jobs` (lines 1521-1535): one
`processing_job_validator` row `(processing_job_id, validator_id)` per
validator. -/
def set_validator_jobs (selfId : Nat) (vids : List Nat) : List (Nat × Nat) :=
  vids.map (fun v => (selfId, v))

/-- A validator job as `release_validators` sees it: its id, external
id, status, the command output id its release would bind, the artifact
its release would create, and its error-log message. -/
structure VJob where
  vid : Nat
  extId : String
  status : Status
  cmdOutId : Option Nat
  artifactId : Nat
  logMsg : String
deriving DecidableEq, Repr

/-- The state `release_validators` works on: the parent transformation
job's status, its log, its validators, the persisted
`artifact_output_processing_job` rows `(cmd_out_id, artifact_id)`, and
the parent's `step` string. -/
structure TransformJob where
  parentStatus : Status
  parentLog : Option String
  validators : List VJob
  bindings : List (Nat × Nat)
  step : Option String
deriving DecidableEq, Repr

/-- A validator counts as completed for the barrier when its status is
`waiting` or `error` (lines 1216-1222). -/
def validator_done (v : VJob) : Bool :=
  v.status = .waiting ∨ v.status = .error

/-- The formatted ids of the validators still holding the barrier
(`'%s [%s]' % (j.id, j.external_id)`). -/
def pending_validator_ids (vs : List VJob) : List String :=
  (vs.filter (fun j => ¬(j.status = .waiting ∨ j.status = .error))).map
    (fun j => toString j.vid ++ " [" ++ j.extId ++ "]")

/-- One iteration of the polling loop of `release_validators`
(lines 1228-1235): while some validator is not yet in
`{waiting, error}`, only the parent's `step` string is rewritten; no
status, binding or log changes. -/
def release_validators_poll (s : TransformJob) : TransformJob :=
  let ids := pending_validator_ids s.validators
  { s with
    step := some ("Validating outputs (" ++ toString ids.length ++
      " remaining) via job(s) " ++ joinWith ", " ids) }

/-- The aggregated message over the errored validators
(lines 1246-1248). -/
def common_error (errored : List VJob) : String :=
  joinWith "\n" (errored.map (fun j =>
    "Validator " ++ toString j.vid ++ " error message: " ++ j.logMsg))

/-- Embeds `ProcessingJob.release` for one validator (lines 1146-1206):
the artifact is materialized, the validator is set to `success`, and
the `{cmd_out_id: artifact_id}` mapping is returned (empty when the
provenance carries no command output id). -/
def release (v : VJob) : VJob × List (Nat × Nat) :=
  ({ v with status := .success },
    match v.cmdOutId with
    | some c => [(c, v.artifactId)]
    | none => [])

/-- The post-barrier half of `release_validators` (lines 1237-1277),
reached once every validator is in `{waiting, error}`.  If any
validator errored, every still-`waiting` validator is failed with the
aggregated sister message and the parent is failed with the aggregate;
otherwise every validator is released, the collected
`{cmd_out_id → artifact_id}` mapping is persisted as output bindings,
and the parent is set to `success`. -/
def release_validators_finish (s : TransformJob) : TransformJob :=
  let errored := s.validators.filter (fun j => j.status = .error)
  if errored.isEmpty then
    let rel : List (VJob × List (Nat × Nat)) := s.validators.map release
    let mapping := rel.flatMap Prod.snd
    let s1 := { s with validators := rel.map Prod.fst }
    let s2 :=
      if mapping.isEmpty then s1
      else { s1 with bindings := s1.bindings ++ mapping }
    { s2 with parentStatus := .success }
  else
    let ce := common_error errored
    let val_error := toString errored.length ++ " sister validator jobs failed: " ++ ce
    let parent_error := toString errored.length ++ " validator jobs failed: " ++ ce
    { s with
      validators := s.validators.map (fun v =>
        if v.status = .waiting then { v with status := .error, logMsg := val_error } else v)
      parentStatus := .error
      parentLog := some parent_error }

/-! ### Workflow submission (`ProcessingWorkflow.submit`) -/

/-- The observable actions of `ProcessingWorkflow.submit`: setting a
non-root job to `waiting`, or submitting a root job (which queues
it). -/
inductive WfEvent where
  | setWaiting (j : Nat)
  | submitRoot (j : Nat)
deriving DecidableEq, Repr

/-- The job a workflow event touches. -/
def eventTarget : WfEvent → Nat
  | .setWaiting j => j
  | .submitRoot j => j

/-- The single pass of `ProcessingWorkflow.submit` over the in-degree
map (lines 2532-2538): roots are collected, every non-root is set to
`waiting` on the spot.  Returns the collected roots and the
`setWaiting` events in iteration order. -/
def workflow_submit_scan : List (Nat × Nat) → List Nat × List WfEvent
  | [] => ([], [])
  | (j, d) :: rest =>
    let r := workflow_submit_scan rest
    if d = 0 then (j :: r.1, r.2) else (r.1, .setWaiting j :: r.2)

/-- Embeds `ProcessingWorkflow.submit` (lines 2517-2541) as its event
trace: the in-degrees are computed once, the scan emits a `setWaiting`
for every non-root, and only then is each root submitted. -/
def workflow_submit_events (nodes : List (Nat × Nat)) : List WfEvent :=
  let (roots, evs) := workflow_submit_scan nodes
  evs ++ roots.map .submitRoot

/-- The status written by one workflow event (`_set_status('waiting')`
for non-roots; `submit` queues a root). -/
def applyEvent (st : Nat → Status) : WfEvent → Nat → Status
  | .setWaiting j => fun k => if k = j then .waiting else st k
  | .submitRoot j => fun k => if k = j then .queued else st k

/-- Folding a trace of workflow events over a status assignment. -/
def applyEvents (st : Nat → Status) : List WfEvent → Nat → Status
  | [] => st
  | e :: es => applyEvents (applyEvent st e) es

/-! ### Resource allocation (`ProcessingJob.resource_allocation_info`,
lines 491-557: the placeholder-processing loop over the allocation
string) -/

/-- The job's shape `(samples, columns, input_size)`; `none` models a
component that could not be calculated. -/
structure Shape where
  samples : Option Int
  columns : Option Int
  input_size : Option Int
deriving DecidableEq, Repr

/-- `'{samples}' in s or '{columns}' in s or '{input_size}' in s`. -/
def hasPlaceholderChars (l : List Char) : Bool :=
  containsSub "{samples}".data l || containsSub "{columns}".data l ||
    containsSub "{input_size}".data l

/-- The pre-evaluation check of lines 520-523: some placeholder occurs
in the fragment body while the corresponding shape component is
`None`. -/
def varMissing (sh : Shape) (l : List Char) : Bool :=
  (containsSub "{samples}".data l && sh.samples.isNone) ||
    (containsSub "{columns}".data l && sh.columns.isNone) ||
    (containsSub "{input_size}".data l && sh.input_size.isNone)

/-- Parse a token of decimal digits. -/
def parseNatToken (l : List Char) : Option Nat :=
  if l.isEmpty then none
  else if l.all Char.isDigit then
    some (l.foldl (fun n c => 10 * n + (c.toNat - 48)) 0)
  else none

/-- One token of the allocation formula: a placeholder (whose shape
value is substituted, line 530-532) or an integer literal; anything
else models the `NameError` that `eval` raises on an unknown
identifier (line 533). -/
def evalToken (sh : Shape) (tok : List Char) : Option Int :=
  if tok = "{samples}".data then sh.samples
  else if tok = "{columns}".data then sh.columns
  else if tok = "{input_size}".data then sh.input_size
  else (parseNatToken tok).map Int.ofNat

/-- Models the Python `eval` of a substituted fragment body, restricted
to `*`-products of integer literals and the three placeholders — the
formula language the allocation templates under claim use.  A failing
token makes the whole evaluation fail, as `eval` would. -/
def evalFormula (sh : Shape) (body : List Char) : Option Int :=
  ((splitOnChar '*' body).map trimChars).foldl
    (fun acc tok =>
      match acc, evalToken sh tok with
      | some a, some b => some (a * b)
      | _, _ => none)
    (some 1)

/-- Two-digit zero padding, as `str(timedelta)` renders minutes and
seconds. -/
def pad2 (n : Nat) : String :=
  if n < 10 then "0" ++ toString n else toString n

/-- Python `str(timedelta(seconds=secs))` for `secs < 86400`:
`H:MM:SS` with unpadded hours. -/
def str_timedelta (secs : Nat) : String :=
  toString (secs / 3600) ++ ":" ++ pad2 (secs % 3600 / 60) ++ ":" ++ pad2 (secs % 60)

/-- The `--time` rendering of lines 541-549: seconds to `D-H:MM:SS`
with the day part only when positive.  (`part.split('.')[0]` is the
identity on integer seconds.) -/
def format_time_part (secs : Nat) : String :=
  if 86400 ≤ secs then
    toString (secs / 86400) ++ "-" ++ str_timedelta (secs % 86400)
  else str_timedelta secs

/-- The gnu suffix table of `humanize.naturalsize`. -/
def gnu_suffixes : List String := ["K", "M", "G", "T", "P", "E", "Z", "Y"]

/-- `%.0f` formatting of the exact rational `num/den`: round half to
even. -/
def roundHalfEven (num den : Nat) : Nat :=
  let q := num / den
  let r := num % den
  if 2 * r < den then q
  else if den < 2 * r then q + 1
  else if q % 2 = 0 then q else q + 1

/-- The suffix loop of `humanize.naturalsize(value, gnu=True,
format='%.0f')`: the first unit `1024^(i+2)` above the value renders
`1024*value/unit` with that suffix; the last suffix also catches the
fall-through. -/
def natsize_go (value : Nat) : List String → Nat → String
  | [], _ => ""
  | [sfx], i => toString (roundHalfEven (1024 * value) (1024 ^ (i + 2))) ++ sfx
  | sfx :: s2 :: rest, i =>
    if value < 1024 ^ (i + 2) then
      toString (roundHalfEven (1024 * value) (1024 ^ (i + 2))) ++ sfx
    else natsize_go value (s2 :: rest) (i + 1)

/-- The `--mem` rendering of lines 550-552:
`humanize.naturalsize(value, gnu=True, format='%.0f')`. -/
def naturalsize_gnu (value : Nat) : String :=
  if value < 1024 then toString value ++ "B"
  else natsize_go value gnu_suffixes 0

/-- Result of the allocation processing: the resolved allocation
string, or `Not valid` with the job failed under the given error
message (`self._set_error(error_msg); return 'Not valid'`). -/
inductive AllocResult where
  | ok (alloc : String)
  | notValid (errMsg : String)
deriving DecidableEq, Repr

/-- Modelled configuration value `qiita_config.help_email`. -/
def help_email : String := "qiita.help@gmail.com"

/-- The user-visible message of lines 495-496. -/
def alloc_error_msg : String :=
  "Obvious incorrect allocation. Please contact " ++ help_email

/-- The `--time ` / `--mem ` dispatch of lines 498-502. -/
def fragment_param (part : List Char) : Option (List Char) :=
  if leadMatches "time ".data part then some "time ".data
  else if leadMatches "mem ".data part then some "mem ".data
  else none

/-- A fragment on which the processing fails: a `--time `/`--mem `
fragment whose body mentions a placeholder and either a mentioned
shape component is `None`, the formula fails to evaluate, or the
evaluated value is non-positive. -/
def bad_fragment (sh : Shape) (part : List Char) : Bool :=
  match fragment_param part with
  | none => false
  | some pm =>
    let body := part.drop pm.length
    hasPlaceholderChars body &&
      (varMissing sh body ||
        match evalFormula sh body with
        | none => true
        | some v => v ≤ 0)

/-- The fragment loop of lines 497-555: walk the `'--'`-split
fragments, pass non-`time`/`mem` fragments through (re-prepending
`--` except for the leading piece), and evaluate `time`/`mem` bodies
that mention a placeholder, rendering the value as a time span or a
byte size; any failure aborts with `Not valid` after failing the
job. -/
def process_parts (sh : Shape) : List (List Char) → List (List Char) → AllocResult
  | [], parts => .ok ⟨joinSpace parts⟩
  | part :: rest, parts =>
    match fragment_param part with
    | none =>
      let p := if parts.isEmpty then trimChars part else '-' :: '-' :: trimChars part
      process_parts sh rest (parts ++ [p])
    | some pm =>
      let body := part.drop pm.length
      if hasPlaceholderChars body then
        if varMissing sh body then .notValid alloc_error_msg
        else
          match evalFormula sh body with
          | none => .notValid alloc_error_msg
          | some value =>
            if value ≤ 0 then .notValid alloc_error_msg
            else
              let rendered : List Char :=
                if pm = "time ".data then (format_time_part value.toNat).data
                else (naturalsize_gnu value.toNat).data
              process_parts sh rest (parts ++ [trimChars ('-' :: '-' :: (pm ++ rendered))])
      else
        process_parts sh rest (parts ++ [trimChars ('-' :: '-' :: (pm ++ body))])

/-- The placeholder-processing tail of `resource_allocation_info`
(lines 491-557): when the allocation template mentions any placeholder,
split it on `'--'` and process the fragments against the job's shape;
otherwise the allocation is returned untouched. -/
def resource_allocation_process (allocation : String) (sh : Shape) : AllocResult :=
  if hasPlaceholderChars allocation.data then
    process_parts sh (splitDashes allocation.data) []
  else .ok allocation

end Qiita

namespace Qiita

/-- C1. The claim: `_set_status` succeeds exactly on the section 4.1
machine's transitions.  This is false: the only checks the code makes
are `current == success` and `current == running and value == queued`,
so for example a job in `error` (terminal for the machine) can be set
back to `queued`.  Concrete counterexample: `set_status error queued`
succeeds although the spec machine forbids any transition out of
`error`. -/
theorem set_status_not_spec_machine :
    (set_status .error .queued).isOk = true ∧
      specPermitted .error .queued = false := by
  decide

/-- C1 (amended). `_set_status` succeeds exactly when the current status
is not `success` and the write is not `running → queued`; in particular
a `success` job never changes status and a `running` job is never set
back to `queued`.  (The section 4.1 machine is only an under-approximation
of what the code accepts.) -/
theorem set_status_ok_iff (s s' : Status) :
    (set_status s s').isOk = true ↔
      (s ≠ .success ∧ ¬(s = .running ∧ s' = .queued)) := by
  revert s s'
  decide

/-- C10. `update_heartbeat_state` stamps a fresh heartbeat and coerces a
`queued` job to `running`; a `running` job keeps its status and gets the
new heartbeat; for every status outside `{queued, running}` — including
`in_construction` and `waiting`, not only the terminal `success` and
`error` — it raises `QiitaDBOperationNotPermittedError` and leaves the
job (in particular its heartbeat) unchanged. -/
theorem update_heartbeat_state_spec (j : HBJob) (now : Nat) :
    (j.status = .queued →
      update_heartbeat_state j now =
        ({ status := .running, heartbeat := some now }, none)) ∧
    (j.status = .running →
      update_heartbeat_state j now =
        ({ j with heartbeat := some now }, none)) ∧
    (j.status ≠ .queued → j.status ≠ .running →
      update_heartbeat_state j now = (j, some .opNotPermitted)) := by
  refine ⟨fun h => ?_, fun h => ?_, fun h1 h2 => ?_⟩
  · simp [update_heartbeat_state, h, set_status]
  · have : j.status ≠ .queued := by simp [h]
    simp [update_heartbeat_state, this, h]
  · simp [update_heartbeat_state, h1, h2]

/-- Witness for C10: the theorem applied at a concrete `waiting` job,
whose heartbeat is left untouched by the failed call. -/
theorem update_heartbeat_state_spec_witness :
    update_heartbeat_state ⟨.waiting, some 7⟩ 99 =
      (⟨.waiting, some 7⟩, some .opNotPermitted) :=
  (update_heartbeat_state_spec ⟨.waiting, some 7⟩ 99).2.2
    (by decide) (by decide)

/-- Helper: the `ready` list collected by `_helper_update_children` is
exactly the updated children whose pending column became NULL. -/
theorem helper_update_children_ready (selfId : Nat) (nm : List (String × Nat)) :
    ∀ (cs : List ChildJob) (us ready : List ChildJob),
      helper_update_children selfId nm cs = .ok (us, ready) →
      ready = us.filter (fun c => c.pending.isNone) := by
  intro cs
  induction cs with
  | nil =>
    intro us ready h
    simp only [helper_update_children] at h
    cases h
    rfl
  | cons c cs ih =>
    intro us ready h
    simp only [helper_update_children] at h
    cases h1 : helper_update_child selfId nm c with
    | error e => rw [h1] at h; cases h
    | ok cr =>
      rw [h1] at h
      obtain ⟨c', links⟩ := cr
      cases h2 : helper_update_children selfId nm cs with
      | error e => rw [h2] at h; cases h
      | ok p =>
        rw [h2] at h
        obtain ⟨us', ready'⟩ := p
        simp only [Except.ok.injEq, Prod.mk.injEq] at h
        obtain ⟨hus, hready⟩ := h
        subst hus
        subst hready
        have hr := ih us' ready' h2
        subst hr
        by_cases hp : c'.pending.isNone
        · simp [hp, List.filter_cons]
        · simp [hp, List.filter_cons]

/-- C4. The claim: a job with non-empty `pending` is never transitioned
to `queued` by `submit`, pending-emptiness being the eligibility test.
This is false: `submit` checks only the status (lines 990-996) and
never reads the pending column, so a direct `submit` of an
`in_construction` job whose pending map is non-empty happily queues
it. -/
theorem submit_queues_nonempty_pending :
    submit_queue_step ⟨.in_construction, [(1, [("input_data", "demultiplexed")])], none, none⟩ =
      .ok ⟨.queued, [(1, [("input_data", "demultiplexed")])], none, none⟩ ∧
    ([(1, [("input_data", "demultiplexed")])] : PendingMap) ≠ [] := by
  constructor
  · rfl
  · decide

/-- C4 (amended). `submit` refuses exactly when the status is outside
`{in_construction, waiting}`, regardless of the pending map, and a
successful `submit` queues the job leaving its pending map untouched;
the automatic child-launch path, for its part, submits exactly the
children whose pending map became empty and whose status is
`in_construction` or `waiting`. -/
theorem submit_and_pending_amended :
    (∀ j : SubmitJob, (submit_queue_step j).isOk = true ↔
      (j.status = .in_construction ∨ j.status = .waiting)) ∧
    (∀ (j j' : SubmitJob), submit_queue_step j = .ok j' →
      j'.status = .queued ∧ j'.pending = j.pending) ∧
    (∀ (selfId : Nat) (nm : List (String × Nat)) (children us launched : List ChildJob),
      update_and_launch_children selfId nm children = .ok (us, launched) →
      ∀ c, c ∈ launched ↔
        (c ∈ us ∧ c.pending = none ∧
          (c.status = .in_construction ∨ c.status = .waiting))) := by
  refine ⟨fun j => ?_, fun j j' h => ?_, fun selfId nm children us launched h c => ?_⟩
  · by_cases hs : j.status = .in_construction ∨ j.status = .waiting
    · rcases hs with hs | hs <;>
        simp [submit_queue_step, hs, set_status, Except.isOk, Except.toBool]
    · push_neg at hs
      simp [submit_queue_step, hs.1, hs.2, Except.isOk, Except.toBool]
  · by_cases hs : j.status = .in_construction ∨ j.status = .waiting
    · rcases hs with hs | hs <;>
        · simp [submit_queue_step, hs, set_status] at h
          subst h
          exact ⟨rfl, rfl⟩
    · push_neg at hs
      exfalso
      simp [submit_queue_step, hs.1, hs.2] at h
  · simp only [update_and_launch_children] at h
    cases h1 : helper_update_children selfId nm children with
    | error e => rw [h1] at h; cases h
    | ok p =>
      rw [h1] at h
      obtain ⟨us', ready'⟩ := p
      simp only [Except.ok.injEq, Prod.mk.injEq] at h
      obtain ⟨hus, hl⟩ := h
      have hr := helper_update_children_ready selfId nm children us' ready' h1
      rw [← hus, ← hl, hr]
      simp only [List.mem_filter, Option.isNone_iff_eq_none, and_assoc,
        decide_eq_true_eq]

/-- Witness for C4 (amended): a concrete parent success threading one
artifact into a single-pending child launches exactly that child. -/
theorem submit_and_pending_amended_witness :
    (submit_queue_step ⟨.waiting, [], none, none⟩).isOk = true ∧
    (⟨5, .waiting, [("p", "7")], none⟩ : ChildJob) ∈
      ([⟨5, .waiting, [("p", "7")], none⟩] : List ChildJob) := by
  constructor
  · exact (submit_and_pending_amended.1 ⟨.waiting, [], none, none⟩).mpr (Or.inr rfl)
  · have h := submit_and_pending_amended.2.2 1 [("out", 7)]
      [⟨5, .waiting, [("p", "x")], some [(1, [("p", "out")])]⟩]
      [⟨5, .waiting, [("p", "7")], none⟩] [⟨5, .waiting, [("p", "7")], none⟩]
      (by rfl) ⟨5, .waiting, [("p", "7")], none⟩
    exact (h.mpr ⟨by decide, rfl, Or.inr rfl⟩)

/-- C7. The claim says every `(parameter, output)` pair under the
child's pending entry is rewritten and the parent entry removed; the
code is a slip: `del pending[self.id]` sits inside the per-pair loop
(line 1767), so a child holding two pairs under one parent raises
`KeyError` on the second iteration and nothing persists.  This theorem
evaluates the embedded code at such a failing input. -/
theorem helper_update_child_two_pairs_keyerror :
    helper_update_child 1 [("o1", 5), ("o2", 6)]
      ⟨10, .in_construction, [("pa", "x"), ("pb", "y")],
        some [(1, [("pa", "o1"), ("pb", "o2")])]⟩ = .error .keyError := by
  rfl

/-- C8. On the special submission path — the plugin's `env_script`
contains the token `ENVIRONMENT` and the command name is not
`Calculate Cell Counts` or `Calculate RNA Copy Counts` — the job is
transitioned to `queued` and then `running` before the script's
synchronously captured outcome is consulted; on non-zero exit status
or non-empty stderr an error (the captured stderr) is attached; in the
clean case the job remains `running` and the captured stdout becomes
its external id. -/
theorem submit_environment_path_spec (envScript cname : String) (exec : ExecOutcome)
    (j : SubmitJob) (hpath : isEnvironmentPath envScript cname = true)
    (hst : j.status = .in_construction ∨ j.status = .waiting) :
    ∃ j' trace, submit envScript cname exec j = .ok (j', trace, true) ∧
      trace.take 2 = [Status.queued, Status.running] ∧
      ((exec.returncode ≠ 0 ∨ exec.stderr ≠ "") →
        j'.status = .error ∧ j'.log = some exec.stderr ∧
          j'.externalId = some exec.stdout) ∧
      (exec.returncode = 0 ∧ exec.stderr = "" →
        j'.status = .running ∧ j'.log = j.log ∧
          j'.externalId = some exec.stdout) := by
  have hq : submit_queue_step j = .ok { j with status := .queued } := by
    rcases hst with hs | hs <;> simp [submit_queue_step, hs, set_status]
  by_cases herr : exec.returncode ≠ 0 ∨ exec.stderr ≠ ""
  · refine ⟨{ j with
        status := .error
        log := some exec.stderr
        externalId := some exec.stdout },
      [.queued, .running, .error], ?_, rfl, fun _ => ⟨rfl, rfl, rfl⟩, fun hc => ?_⟩
    · simp [submit, hq, hpath, set_status, herr, set_error]
    · exact absurd hc (by tauto)
  · push_neg at herr
    refine ⟨{ j with
        status := .running
        externalId := some exec.stdout },
      [.queued, .running], ?_, rfl, fun hc => absurd hc (by tauto), fun _ => ⟨rfl, rfl, rfl⟩⟩
    simp [submit, hq, hpath, set_status, herr.1, herr.2]

/-- Witness for C8: a concrete clean run through the special path uses
the captured stdout `1987` as the external id. -/
theorem submit_environment_path_spec_witness :
    ∃ j' trace,
      submit "source activate qiita; ENVIRONMENT" "Woltka v0.1.4"
        ⟨"1987", "", 0⟩ ⟨.waiting, [], none, none⟩ = .ok (j', trace, true) ∧
      trace.take 2 = [Status.queued, Status.running] ∧
      (((0 : Int) ≠ 0 ∨ ("" : String) ≠ "") →
        j'.status = .error ∧ j'.log = some "" ∧ j'.externalId = some "1987") ∧
      ((0 : Int) = 0 ∧ ("" : String) = "" →
        j'.status = .running ∧ j'.log = (none : Option String) ∧
          j'.externalId = some "1987") :=
  submit_environment_path_spec "source activate qiita; ENVIRONMENT" "Woltka v0.1.4"
    ⟨"1987", "", 0⟩ ⟨.waiting, [], none, none⟩ (by rfl) (Or.inr rfl)

/-- C3. The claim: the second of two identical-parameter `create` calls
fails exactly when the first job's status is in
`{in_construction, queued, running, waiting}` (or `success` with a
child).  This is false: the SQL status filter (lines 594-595) lists
only `success, waiting, running, in_construction`, so a matching job in
`queued` status does not block the second creation. -/
theorem create_ignores_queued_duplicates :
    (create 3 [("input_data", PValue.scalar "1")] false
      [⟨"d19f76ee", "demo@x.org", 3, [("input_data", "1")], .queued, 0⟩]).isOk = true ∧
    matches_params [("input_data", "1")]
      (expand_params [("input_data", PValue.scalar "1")]) = true := by
  constructor
  · rfl
  · rfl

/-- C3 (amended). With `force=false`, a first `create` against an
empty table succeeds, and a second `create` whose command and expanded
parameters match an existing job fails — with a `ValueError` listing
the offending `(job_id, status)` pairs — exactly when that job's status
is in `{in_construction, running, waiting}` or it is `success` with at
least one child output artifact; a `queued` first job does not block,
and with `force=true` the call always succeeds. -/
theorem create_duplicate_guard_amended (cmdId : Nat) (ps : List (String × PValue))
    (j : ExistingJob) (hcmd : j.cmdId = cmdId)
    (hmatch : matches_params j.stored (expand_params ps) = true) :
    ((create cmdId ps false []).isOk = true) ∧
    ((create cmdId ps true [j]).isOk = true) ∧
    ((create cmdId ps false [j]).isOk = true ↔
      ¬(j.status = .in_construction ∨ j.status = .running ∨ j.status = .waiting ∨
          (j.status = .success ∧ 0 < j.childOutputs))) ∧
    ((j.status = .in_construction ∨ j.status = .running ∨ j.status = .waiting ∨
        (j.status = .success ∧ 0 < j.childOutputs)) →
      create cmdId ps false [j] = .error (.valueError [(j.jobId, j.status)])) := by
  refine ⟨by simp [create, duplicate_query, Except.isOk, Except.toBool],
    by simp [create, Except.isOk, Except.toBool], ?_, ?_⟩
  · cases hs : j.status
    case success =>
      rcases Nat.eq_zero_or_pos j.childOutputs with hc | hc <;>
        simp [create, duplicate_query, sql_status_filter, hcmd, hmatch, hs, hc,
          Except.isOk, Except.toBool]
    all_goals
      simp [create, duplicate_query, sql_status_filter, hcmd, hmatch, hs,
        Except.isOk, Except.toBool]
  · cases hs : j.status
    case success =>
      rcases Nat.eq_zero_or_pos j.childOutputs with hc | hc <;>
        simp [create, duplicate_query, sql_status_filter, hcmd, hmatch, hs, hc]
    all_goals
      simp [create, duplicate_query, sql_status_filter, hcmd, hmatch, hs]

/-- Witness for C3 (amended): a concrete matching `running` first job
blocks the second call, which reports the offending pair. -/
theorem create_duplicate_guard_amended_witness :
    ((create 3 [("input_data", PValue.scalar "1")] false []).isOk = true) ∧
    ((create 3 [("input_data", PValue.scalar "1")] true
      [⟨"b7a5", "demo@x.org", 3, [("input_data", "1")], .running, 0⟩]).isOk = true) ∧
    ((create 3 [("input_data", PValue.scalar "1")] false
      [⟨"b7a5", "demo@x.org", 3, [("input_data", "1")], .running, 0⟩]).isOk = true ↔
      ¬((Status.running = Status.in_construction ∨ Status.running = Status.running ∨
          Status.running = Status.waiting ∨
          (Status.running = Status.success ∧ 0 < 0)))) ∧
    ((Status.running = Status.in_construction ∨ Status.running = Status.running ∨
        Status.running = Status.waiting ∨
        (Status.running = Status.success ∧ 0 < 0)) →
      create 3 [("input_data", PValue.scalar "1")] false
        [⟨"b7a5", "demo@x.org", 3, [("input_data", "1")], .running, 0⟩] =
        .error (.valueError [("b7a5", Status.running)])) :=
  create_duplicate_guard_amended 3 [("input_data", PValue.scalar "1")]
    ⟨"b7a5", "demo@x.org", 3, [("input_data", "1")], .running, 0⟩ rfl (by rfl)

/-- Helper: `(m + n - 1) / n` steps down by one chunk on a non-empty
list: it equals `((m - n) + n - 1) / n + 1` for positive `m`. -/
theorem ceil_div_succ (m n : Nat) (hn : 0 < n) (hm : 0 < m) :
    (m + n - 1) / n = (m - n + n - 1) / n + 1 := by
  rcases le_or_lt m n with hle | hlt
  · have h1 : m - n = 0 := Nat.sub_eq_zero_of_le hle
    have h2 : (0 + n - 1) / n = 0 := Nat.div_eq_of_lt (by omega)
    have h3 : m + n - 1 = (m - 1) + n := by omega
    rw [h1, h2, h3, Nat.add_div_right _ hn, Nat.div_eq_of_lt (by omega)]
  · have h3 : m + n - 1 = (m - n + n - 1) + n := by omega
    rw [h3, Nat.add_div_right _ hn]

/-- Helper: the chunking of the empty list is empty. -/
theorem chunk_validators_nil {α : Type} (n : Nat) :
    chunk_validators ([] : List α) n = [] := by
  cases n with
  | zero => simp [chunk_validators]
  | succ k =>
    simp [chunk_validators, Nat.div_eq_of_lt (Nat.lt_succ_self k)]

/-- Helper: on a non-empty list the chunking peels off the first `n`
elements. -/
theorem chunk_validators_cons {α : Type} (l : List α) (n : Nat) (hn : 0 < n)
    (hl : l ≠ []) :
    chunk_validators l n = l.take n :: chunk_validators (l.drop n) n := by
  have hm : 0 < l.length := List.length_pos.mpr hl
  unfold chunk_validators
  rw [List.length_drop, ceil_div_succ l.length n hn hm, List.range_succ_eq_map]
  simp only [List.map_cons, List.map_map, Nat.zero_mul, List.drop_zero]
  congr 1
  apply List.map_congr_left
  intro i hi
  simp only [Function.comp_apply, List.drop_drop, Nat.succ_mul]
  rw [Nat.add_comm (i * n) n, Nat.add_comm n (i * n)]

/-- Helper: chunking partitions the list. -/
theorem chunk_validators_flatten {α : Type} (n : Nat) (hn : 0 < n) :
    ∀ (k : Nat) (l : List α), l.length ≤ k →
      (chunk_validators l n).flatten = l := by
  intro k
  induction k with
  | zero =>
    intro l hlen
    have h0 : l = [] := List.length_eq_zero.mp (Nat.le_zero.mp hlen)
    subst h0
    simp [chunk_validators_nil]
  | succ k ih =>
    intro l hlen
    by_cases hl : l = []
    · subst hl
      simp [chunk_validators_nil]
    · rw [chunk_validators_cons l n hn hl]
      simp only [List.flatten_cons]
      rw [ih (l.drop n) (by simp only [List.length_drop]; omega)]
      exact List.take_append_drop n l

/-- Helper: the lead/dependents decomposition reassembles the chunks
when none of them is empty. -/
theorem filterMap_chain_structure {α : Type} :
    ∀ ls : List (List α), (∀ l ∈ ls, l ≠ []) →
      (ls.filterMap (fun l =>
        match l with
        | [] => none
        | lead :: rest => some (lead, rest))).map (fun c => c.1 :: c.2) = ls := by
  intro ls
  induction ls with
  | nil => intro _; rfl
  | cons l ls ih =>
    intro h
    cases l with
    | nil => exact absurd rfl (h [] (List.mem_cons_self _ _))
    | cons a as =>
      simp only [List.filterMap_cons, List.map_cons]
      rw [ih (fun x hx => h x (List.mem_cons_of_mem _ hx))]

/-- C5. A fan-out of `m` validators with dependency queue count `n`
(the configured `job_scheduler_dependency_q_cnt`, defaulting to 2 when
unset) is submitted as exactly `⌈m/n⌉` chains — the chunk count equals
`(m + n - 1) / n`, the least `q` with `m ≤ q·n` — each chain holding at
most `n` jobs, each chain's lead job carrying the remainder of its
chain as its dependents list, and the chains together covering every
validator exactly once. -/
theorem validator_chain_fanout {α : Type} (cfg : Option Nat)
    (hn : 0 < dependency_q_cnt cfg) (validator_jobs : List α) :
    dependency_q_cnt none = 2 ∧
    (chunk_validators validator_jobs (dependency_q_cnt cfg)).length =
      (validator_jobs.length + dependency_q_cnt cfg - 1) / dependency_q_cnt cfg ∧
    validator_jobs.length ≤
      (chunk_validators validator_jobs (dependency_q_cnt cfg)).length *
        dependency_q_cnt cfg ∧
    (chunk_validators validator_jobs (dependency_q_cnt cfg)).length *
        dependency_q_cnt cfg <
      validator_jobs.length + dependency_q_cnt cfg ∧
    (∀ l ∈ chunk_validators validator_jobs (dependency_q_cnt cfg),
      l.length ≤ dependency_q_cnt cfg ∧ l ≠ []) ∧
    (submit_chains validator_jobs (dependency_q_cnt cfg)).map
        (fun c => c.1 :: c.2) =
      chunk_validators validator_jobs (dependency_q_cnt cfg) ∧
    (chunk_validators validator_jobs (dependency_q_cnt cfg)).flatten =
      validator_jobs := by
  set n := dependency_q_cnt cfg with hndef
  have hlen : (chunk_validators validator_jobs n).length =
      (validator_jobs.length + n - 1) / n := by
    simp [chunk_validators]
  have hmem : ∀ l ∈ chunk_validators validator_jobs n, l.length ≤ n ∧ l ≠ [] := by
    intro l hl
    simp only [chunk_validators, List.mem_map, List.mem_range] at hl
    obtain ⟨i, hi, rfl⟩ := hl
    have hmul : (i + 1) * n ≤ validator_jobs.length + n - 1 :=
      (Nat.le_div_iff_mul_le hn).mp hi
    rw [Nat.succ_mul] at hmul
    have hlt : i * n < validator_jobs.length := by
      generalize hX : i * n = X at hmul ⊢
      omega
    constructor
    · simp [List.length_take]
    · have hpos : 0 < ((validator_jobs.drop (i * n)).take n).length := by
        simp only [List.length_take, List.length_drop]
        generalize hX : i * n = X at hlt ⊢
        omega
      exact List.length_pos.mp hpos
  refine ⟨rfl, hlen, ?_, ?_, hmem, ?_, ?_⟩
  · rw [hlen]
    have h1 : (validator_jobs.length + n - 1) / n * n ≤
        validator_jobs.length + n - 1 := Nat.div_mul_le_self _ _
    have h2 : validator_jobs.length + n - 1 <
        ((validator_jobs.length + n - 1) / n + 1) * n :=
      (Nat.div_lt_iff_lt_mul hn).mp (Nat.lt_succ_self _)
    rw [Nat.succ_mul] at h2
    generalize hX : (validator_jobs.length + n - 1) / n * n = X at h1 h2 ⊢
    omega
  · rw [hlen]
    have h1 : (validator_jobs.length + n - 1) / n * n ≤
        validator_jobs.length + n - 1 := Nat.div_mul_le_self _ _
    generalize hX : (validator_jobs.length + n - 1) / n * n = X at h1 ⊢
    omega
  · exact filterMap_chain_structure _ (fun l hl => (hmem l hl).2)
  · exact chunk_validators_flatten n hn validator_jobs.length validator_jobs
      (Nat.le_refl _)

/-- Witness for C5: three validators under the default queue count 2
are chained as a pair and a singleton. -/
theorem validator_chain_fanout_witness :
    ((0 : Nat) < dependency_q_cnt none) ∧
    submit_chains [10, 20, 30] (dependency_q_cnt none) = [(10, [20]), (30, [])] ∧
    (chunk_validators [10, 20, 30] (dependency_q_cnt none)).length = 2 :=
  ⟨by decide,
    by have h := validator_chain_fanout (α := Nat) none (by decide) [10, 20, 30]
       exact h.1 ▸ rfl,
    by have h := validator_chain_fanout (α := Nat) none (by decide) [10, 20, 30]
       simpa using h.2.1⟩

/-- Helper: the scan of `ProcessingWorkflow.submit` collects exactly the
in-degree-zero jobs as roots and emits one `setWaiting` per non-root,
in iteration order. -/
theorem workflow_submit_scan_spec (nodes : List (Nat × Nat)) :
    (workflow_submit_scan nodes).1 =
      (nodes.filter (fun p => p.2 = 0)).map Prod.fst ∧
    (workflow_submit_scan nodes).2 =
      (nodes.filter (fun p => ¬(p.2 = 0))).map (fun p => WfEvent.setWaiting p.1) := by
  induction nodes with
  | nil => exact ⟨rfl, rfl⟩
  | cons nd nodes ih =>
    obtain ⟨j, d⟩ := nd
    by_cases hd : d = 0 <;>
      simp [workflow_submit_scan, hd, List.filter_cons, ih.1, ih.2]

/-- Helper: event application distributes over trace concatenation. -/
theorem applyEvents_append (es fs : List WfEvent) :
    ∀ σ : Nat → Status, applyEvents σ (es ++ fs) = applyEvents (applyEvents σ es) fs := by
  induction es with
  | nil => intro σ; rfl
  | cons e es ih => intro σ; simp [applyEvents, ih]

/-- Helper: a trace whose events all target other jobs leaves a job's
status unchanged. -/
theorem applyEvents_not_touched (j : Nat) :
    ∀ (es : List WfEvent) (σ : Nat → Status),
      (∀ e ∈ es, eventTarget e ≠ j) → applyEvents σ es j = σ j := by
  intro es
  induction es with
  | nil => intro σ _; rfl
  | cons e es ih =>
    intro σ h
    simp only [applyEvents]
    rw [ih _ (fun f hf => h f (List.mem_cons_of_mem _ hf))]
    have he := h e (List.mem_cons_self _ _)
    cases e with
    | setWaiting k => simp only [eventTarget] at he; simp [applyEvent, Ne.symm he]
    | submitRoot k => simp only [eventTarget] at he; simp [applyEvent, Ne.symm he]

/-- Helper: a trace containing `setWaiting j` whose only events
targeting `j` are `setWaiting j` leaves `j` in `waiting`. -/
theorem applyEvents_setWaiting (j : Nat) :
    ∀ (es : List WfEvent) (σ : Nat → Status),
      WfEvent.setWaiting j ∈ es →
      (∀ e ∈ es, eventTarget e = j → e = .setWaiting j) →
      applyEvents σ es j = .waiting := by
  intro es
  induction es with
  | nil => intro σ h; cases h
  | cons e es ih =>
    intro σ hmem hall
    by_cases hin : WfEvent.setWaiting j ∈ es
    · exact ih _ hin (fun f hf => hall f (List.mem_cons_of_mem _ hf))
    · have he : e = .setWaiting j := by
        rcases List.mem_cons.mp hmem with h | h
        · exact h.symm
        · exact absurd h hin
      subst he
      simp only [applyEvents]
      rw [applyEvents_not_touched j es _ ?_]
      · simp [applyEvent]
      · intro f hf htar
        exact absurd ((hall f (List.mem_cons_of_mem _ hf)) htar ▸ hf) hin

/-- Helper: a split of `waits ++ subs` at a `submitRoot` event falls
inside `subs` when every event of `waits` is a `setWaiting`. -/
theorem split_after_waits (r : Nat) :
    ∀ (waits subs l1 l2 : List WfEvent),
      (∀ e ∈ waits, ∃ j, e = WfEvent.setWaiting j) →
      waits ++ subs = l1 ++ WfEvent.submitRoot r :: l2 →
      ∃ subs1, l1 = waits ++ subs1 ∧ subs = subs1 ++ WfEvent.submitRoot r :: l2 := by
  intro waits
  induction waits with
  | nil =>
    intro subs l1 l2 _ h
    exact ⟨l1, (List.nil_append l1).symm, h⟩
  | cons w ws ih =>
    intro subs l1 l2 hw h
    cases l1 with
    | nil =>
      rw [List.cons_append, List.nil_append] at h
      obtain ⟨j, hj⟩ := hw w (List.mem_cons_self _ _)
      rw [hj] at h
      cases h
    | cons x l1 =>
      rw [List.cons_append, List.cons_append] at h
      injection h with h1 h2
      obtain ⟨subs1, hs1, hs2⟩ :=
        ih subs l1 l2 (fun e he => hw e (List.mem_cons_of_mem _ he)) h2
      refine ⟨subs1, ?_, hs2⟩
      rw [List.cons_append, ← h1, hs1]

/-- C9. `ProcessingWorkflow.submit` computes the in-degrees once and
sets every non-root (in-degree positive) job to `waiting` before any
root is submitted: in the emitted event trace, every `setWaiting`
precedes every `submitRoot`, and at the moment any root's submission
fires, every non-root job's status is already `waiting` — no root is
ever submitted while a non-root is still `in_construction`. -/
theorem workflow_submit_nonroots_waiting_first (nodes : List (Nat × Nat))
    (hnd : (nodes.map Prod.fst).Nodup) (σ : Nat → Status)
    (l1 l2 : List WfEvent) (r : Nat)
    (hsplit : workflow_submit_events nodes = l1 ++ WfEvent.submitRoot r :: l2) :
    ∀ j d, (j, d) ∈ nodes → d ≠ 0 →
      WfEvent.setWaiting j ∈ l1 ∧ applyEvents σ l1 j = .waiting := by
  intro j d hjd hd
  obtain ⟨hroots, hwaits⟩ := workflow_submit_scan_spec nodes
  have hev : workflow_submit_events nodes =
      (workflow_submit_scan nodes).2 ++
        ((workflow_submit_scan nodes).1.map WfEvent.submitRoot) := rfl
  rw [hev] at hsplit
  have hwaitsShape : ∀ e ∈ (workflow_submit_scan nodes).2, ∃ k, e = WfEvent.setWaiting k := by
    intro e he
    rw [hwaits] at he
    obtain ⟨p, -, rfl⟩ := List.mem_map.mp he
    exact ⟨p.1, rfl⟩
  obtain ⟨subs1, hl1, hsubs⟩ :=
    split_after_waits r _ _ l1 l2 hwaitsShape hsplit
  have hmemwait : WfEvent.setWaiting j ∈ (workflow_submit_scan nodes).2 := by
    rw [hwaits]
    exact List.mem_map.mpr ⟨(j, d), List.mem_filter.mpr ⟨hjd, by simpa using hd⟩, rfl⟩
  have hsub1targets : ∀ e ∈ subs1, eventTarget e ≠ j := by
    intro e he
    have hesubs : e ∈ (workflow_submit_scan nodes).1.map WfEvent.submitRoot := by
      rw [hsubs]
      exact List.mem_append.mpr (Or.inl he)
    obtain ⟨rt, hrt, rfl⟩ := List.mem_map.mp hesubs
    rw [hroots] at hrt
    obtain ⟨p, hp, hpr⟩ := List.mem_map.mp hrt
    have hpfilter := List.mem_filter.mp hp
    intro htar
    simp only [eventTarget] at htar
    have hpj : p = (j, d) := by
      apply List.inj_on_of_nodup_map hnd hpfilter.1 hjd
      rw [hpr, htar]
    have : p.2 = 0 := by simpa using hpfilter.2
    rw [hpj] at this
    exact hd this
  constructor
  · rw [hl1]
    exact List.mem_append.mpr (Or.inl hmemwait)
  · rw [hl1, applyEvents_append]
    rw [applyEvents_not_touched j subs1 _ hsub1targets]
    apply applyEvents_setWaiting j _ _ hmemwait
    intro e he htar
    obtain ⟨k, hk⟩ := hwaitsShape e he
    rw [hk] at htar ⊢
    simp only [eventTarget] at htar
    rw [htar]

/-- Witness for C9: a two-node workflow (root 1, non-root 2); at the
moment root 1 is submitted, job 2 is already `waiting`. -/
theorem workflow_submit_nonroots_waiting_first_witness :
    WfEvent.setWaiting 2 ∈ [WfEvent.setWaiting 2] ∧
    applyEvents (fun _ => Status.in_construction) [WfEvent.setWaiting 2] 2 = .waiting :=
  workflow_submit_nonroots_waiting_first [(1, 0), (2, 1)] (by decide)
    (fun _ => Status.in_construction) [WfEvent.setWaiting 2] [] 1 (by rfl)
    2 1 (by decide) (by decide)

/-- C2. The validator barrier.  A transformation job completing with
`m` outputs creates exactly `m` validators, each carrying the parent's
id in its provenance, and links all of them as its validators.  While
any validator is outside `{waiting, error}`, the polling loop of
`release_validators` rewrites only the parent's `step` — parent status,
validators and bindings are untouched.  Once every validator is in
`{waiting, error}`: with at least one `error` validator, every
still-`waiting` validator and the parent are failed carrying the
aggregated message; otherwise every validator is released to `success`,
the collected `{cmd_out_id → artifact_id}` mapping is appended to the
output bindings, and the parent is set to `success`. -/
theorem transformation_validator_barrier :
    (∀ (selfId : Nat) (cmdOut : String → Option Nat) (data : List (String × AData)),
      (complete_transformation_validators selfId cmdOut data).length = data.length ∧
      ∀ v ∈ complete_transformation_validators selfId cmdOut data,
        v.provenance.job = selfId) ∧
    (∀ (selfId : Nat) (vids : List Nat),
      (set_validator_jobs selfId vids).length = vids.length ∧
      ∀ pr ∈ set_validator_jobs selfId vids, pr.1 = selfId) ∧
    (∀ s : TransformJob,
      (release_validators_poll s).parentStatus = s.parentStatus ∧
      (release_validators_poll s).validators = s.validators ∧
      (release_validators_poll s).bindings = s.bindings) ∧
    (∀ s : TransformJob, (∀ v ∈ s.validators, validator_done v = true) →
      (s.validators.filter (fun j => j.status = .error) ≠ [] →
        (release_validators_finish s).parentStatus = .error ∧
        (release_validators_finish s).parentLog =
          some (toString (s.validators.filter (fun j => j.status = .error)).length ++
            " validator jobs failed: " ++
            common_error (s.validators.filter (fun j => j.status = .error))) ∧
        (∀ v ∈ s.validators, v.status = .waiting →
          ({ v with
              status := .error
              logMsg := toString
                  (s.validators.filter (fun j => j.status = .error)).length ++
                " sister validator jobs failed: " ++
                common_error (s.validators.filter (fun j => j.status = .error)) } :
            VJob) ∈ (release_validators_finish s).validators)) ∧
      (s.validators.filter (fun j => j.status = .error) = [] →
        (release_validators_finish s).parentStatus = .success ∧
        (release_validators_finish s).validators =
          s.validators.map (fun v => { v with status := .success }) ∧
        (release_validators_finish s).bindings =
          s.bindings ++ s.validators.flatMap (fun v => (release v).2))) := by
  refine ⟨fun selfId cmdOut data => ⟨?_, ?_⟩, fun selfId vids => ⟨?_, ?_⟩,
    fun s => ⟨rfl, rfl, rfl⟩, fun s _ => ⟨fun herr => ?_, fun hok => ?_⟩⟩
  · simp [complete_transformation_validators]
  · intro v hv
    obtain ⟨oa, -, rfl⟩ := List.mem_map.mp hv
    rfl
  · simp [set_validator_jobs]
  · intro pr hpr
    obtain ⟨v, -, rfl⟩ := List.mem_map.mp hpr
    rfl
  · have hne : (s.validators.filter (fun j => j.status = .error)).isEmpty = false := by
      simpa [List.isEmpty_iff] using herr
    refine ⟨by simp [release_validators_finish, hne], by simp [release_validators_finish, hne], ?_⟩
    intro v hv hvw
    simp only [release_validators_finish, hne, Bool.false_eq_true, if_false]
    exact List.mem_map.mpr ⟨v, hv, by simp [hvw]⟩
  · have he : (s.validators.filter (fun j => j.status = .error)).isEmpty = true := by
      simp [List.isEmpty_iff, hok]
    refine ⟨by simp [release_validators_finish, he], ?_, ?_⟩
    · simp only [release_validators_finish, he, if_true]
      by_cases hm : ((s.validators.map release).flatMap Prod.snd).isEmpty <;>
        simp [hm, List.map_map, release, Function.comp]
    · simp only [release_validators_finish, he, if_true]
      by_cases hm : ((s.validators.map release).flatMap Prod.snd).isEmpty
      · have hnil : (s.validators.map release).flatMap Prod.snd = [] :=
          List.isEmpty_iff.mp hm
        simp only [hm, if_true]
        rw [List.flatMap_map] at hnil
        simp [hnil]
      · simp only [hm, if_false]
        simp [List.flatMap_map, Function.comp]

/-- Witness for C2: with validators `{1 ↦ waiting, 2 ↦ error}` the
parent and validator 1 fail with the aggregate; with a single waiting
validator everything is released and the binding `(11, 101)` is
persisted. -/
theorem transformation_validator_barrier_witness :
    (complete_transformation_validators 7 (fun _ => some 11)
      [("demux", ⟨"Demultiplexed", [("f1", "fastq")]⟩)]).length = 1 ∧
    (release_validators_finish
      ⟨.running, none, [⟨1, "e1", .waiting, some 11, 101, ""⟩,
        ⟨2, "e2", .error, some 12, 102, "boom"⟩], [], none⟩).parentStatus = .error ∧
    (release_validators_finish
      ⟨.running, none, [⟨1, "e1", .waiting, some 11, 101, ""⟩], [], none⟩).bindings =
      [(11, 101)] := by
  refine ⟨(transformation_validator_barrier.1 7 (fun _ => some 11)
      [("demux", ⟨"Demultiplexed", [("f1", "fastq")]⟩)]).1, ?_, ?_⟩
  · exact ((transformation_validator_barrier.2.2.2
      ⟨.running, none, [⟨1, "e1", .waiting, some 11, 101, ""⟩,
        ⟨2, "e2", .error, some 12, 102, "boom"⟩], [], none⟩ (by decide)).1
      (by decide)).1
  · have h := ((transformation_validator_barrier.2.2.2
      ⟨.running, none, [⟨1, "e1", .waiting, some 11, 101, ""⟩], [], none⟩
      (by decide)).2 (by decide)).2.2
    simpa using h

/-- Helper: the fragment loop returns `Not valid` (failing the job with
the allocation error message) exactly when some fragment is bad — a
`--time`/`--mem` fragment whose body mentions a placeholder and whose
shape component is missing, whose formula fails to evaluate, or whose
value is non-positive. -/
theorem process_parts_notValid_iff (sh : Shape) :
    ∀ (parts acc : List (List Char)),
      process_parts sh parts acc = .notValid alloc_error_msg ↔
        ∃ p ∈ parts, bad_fragment sh p = true := by
  intro parts
  induction parts with
  | nil => intro acc; simp [process_parts]
  | cons part rest ih =>
    intro acc
    cases hfp : fragment_param part with
    | none =>
      simp [process_parts, bad_fragment, hfp, ih]
    | some pm =>
      by_cases hph : hasPlaceholderChars (part.drop pm.length)
      · by_cases hvm : varMissing sh (part.drop pm.length)
        · simp [process_parts, bad_fragment, hfp, hph, hvm]
        · cases hev : evalFormula sh (part.drop pm.length) with
          | none =>
            simp [process_parts, bad_fragment, hfp, hph, hvm, hev]
          | some v =>
            by_cases hv : v ≤ 0
            · simp [process_parts, bad_fragment, hfp, hph, hvm, hev, hv]
            · simp [process_parts, bad_fragment, hfp, hph, hvm, hev, hv, ih]
      · simp [process_parts, bad_fragment, hfp, hph, ih]

/-- C6. The resource-allocation template
`--time {samples}*60 --mem {samples}*1024*1024` on a job whose shape
has `samples = 10` resolves its fragments to `--time 0:10:00` and
`--mem 10M`; with `samples = None` the processing returns `Not valid`
and fails the job with the "Obvious incorrect allocation" message; and
in general the processing returns `Not valid` with that message exactly
when some `--time`/`--mem` fragment mentions a placeholder whose shape
component is `None`, whose formula fails to evaluate, or whose value is
non-positive. -/
theorem resource_allocation_template_spec :
    resource_allocation_process
        "--time {samples}*60 --mem {samples}*1024*1024" ⟨some 10, none, none⟩ =
      .ok " --time 0:10:00 --mem 10M" ∧
    (∀ c i : Option Int,
      resource_allocation_process
          "--time {samples}*60 --mem {samples}*1024*1024" ⟨none, c, i⟩ =
        .notValid alloc_error_msg) ∧
    (∀ (allocation : String) (sh : Shape),
      resource_allocation_process allocation sh = .notValid alloc_error_msg ↔
        (hasPlaceholderChars allocation.data = true ∧
          ∃ p ∈ splitDashes allocation.data, bad_fragment sh p = true)) := by
  have hgen : ∀ (allocation : String) (sh : Shape),
      resource_allocation_process allocation sh = .notValid alloc_error_msg ↔
        (hasPlaceholderChars allocation.data = true ∧
          ∃ p ∈ splitDashes allocation.data, bad_fragment sh p = true) := by
    intro allocation sh
    by_cases hp : hasPlaceholderChars allocation.data <;>
      simp [resource_allocation_process, hp, process_parts_notValid_iff]
  refine ⟨by decide, fun c i => ?_, hgen⟩
  apply (hgen "--time {samples}*60 --mem {samples}*1024*1024" ⟨none, c, i⟩).mpr
  refine ⟨by decide, "time {samples}*60 ".data, by decide, ?_⟩
  have h1 : fragment_param ("time {samples}*60 ".data) = some "time ".data := by
    decide
  have hb : ("time {samples}*60 ".data).drop ("time ".data).length =
      "{samples}*60 ".data := by decide
  have hph : hasPlaceholderChars ("{samples}*60 ".data) = true := by decide
  have hs1 : containsSub "{samples}".data ("{samples}*60 ".data) = true := by
    decide
  have hs2 : containsSub "{columns}".data ("{samples}*60 ".data) = false := by
    decide
  have hs3 : containsSub "{input_size}".data ("{samples}*60 ".data) = false := by
    decide
  simp [bad_fragment, h1, hb, hph, varMissing, hs1, hs2, hs3]

end Qiita
